import Mathlib

/-!
Verification of the Vibe-Prolog interpreter core against its specification.

The development shallowly embeds the repository's control built-ins
(`prolog/builtins/control.py`), DCG built-ins (`vibeprolog/builtins/dcg.py`)
and, where the engine modules themselves are absent, models of the resolver,
conditional compilation and predicate-property enumeration taken from the
specification and pinned by the repository's test suite.
-/

namespace VibeProlog

/-- Modelled from the spec: the term universe of §3 (the parser/terms modules
are not among the provided sources).  Atoms carry a name, integers are
arbitrary precision, variables are identified by a globally unique id (the
display name is irrelevant to semantics and omitted), compounds carry a
functor name and argument list, and lists carry an element prefix plus an
optional tail.  Floats are omitted: no claim under verification involves
floating point values. -/
inductive Term where
  | atom (name : String)
  | intNum (n : Int)
  | var (id : Nat)
  | compound (functor : String) (args : List Term)
  | listT (elements : List Term) (tail : Option Term)
mutual

/-- Decidable structural equality on terms. -/
def Term.decEq : (a b : Term) → Decidable (a = b)
  | .atom a, .atom b =>
    if h : a = b then isTrue (by rw [h]) else isFalse (fun hh => h (Term.atom.inj hh))
  | .intNum a, .intNum b =>
    if h : a = b then isTrue (by rw [h]) else isFalse (fun hh => h (Term.intNum.inj hh))
  | .var a, .var b =>
    if h : a = b then isTrue (by rw [h]) else isFalse (fun hh => h (Term.var.inj hh))
  | .compound f as, .compound g bs =>
    if hf : f = g then
      match Term.decEqList as bs with
      | isTrue h => isTrue (by rw [hf, h])
      | isFalse h => isFalse (fun hh => h (Term.compound.inj hh).2)
    else isFalse (fun hh => hf (Term.compound.inj hh).1)
  | .listT es t1, .listT fs t2 =>
    match Term.decEqList es fs, Term.decEqOpt t1 t2 with
    | isTrue h1, isTrue h2 => isTrue (by rw [h1, h2])
    | isFalse h1, _ => isFalse (fun hh => h1 (Term.listT.inj hh).1)
    | _, isFalse h2 => isFalse (fun hh => h2 (Term.listT.inj hh).2)
  | .atom _, .intNum _ => isFalse (fun h => Term.noConfusion h)
  | .atom _, .var _ => isFalse (fun h => Term.noConfusion h)
  | .atom _, .compound _ _ => isFalse (fun h => Term.noConfusion h)
  | .atom _, .listT _ _ => isFalse (fun h => Term.noConfusion h)
  | .intNum _, .atom _ => isFalse (fun h => Term.noConfusion h)
  | .intNum _, .var _ => isFalse (fun h => Term.noConfusion h)
  | .intNum _, .compound _ _ => isFalse (fun h => Term.noConfusion h)
  | .intNum _, .listT _ _ => isFalse (fun h => Term.noConfusion h)
  | .var _, .atom _ => isFalse (fun h => Term.noConfusion h)
  | .var _, .intNum _ => isFalse (fun h => Term.noConfusion h)
  | .var _, .compound _ _ => isFalse (fun h => Term.noConfusion h)
  | .var _, .listT _ _ => isFalse (fun h => Term.noConfusion h)
  | .compound _ _, .atom _ => isFalse (fun h => Term.noConfusion h)
  | .compound _ _, .intNum _ => isFalse (fun h => Term.noConfusion h)
  | .compound _ _, .var _ => isFalse (fun h => Term.noConfusion h)
  | .compound _ _, .listT _ _ => isFalse (fun h => Term.noConfusion h)
  | .listT _ _, .atom _ => isFalse (fun h => Term.noConfusion h)
  | .listT _ _, .intNum _ => isFalse (fun h => Term.noConfusion h)
  | .listT _ _, .var _ => isFalse (fun h => Term.noConfusion h)
  | .listT _ _, .compound _ _ => isFalse (fun h => Term.noConfusion h)

/-- Decidable equality on term lists. -/
def Term.decEqList : (as bs : List Term) → Decidable (as = bs)
  | [], [] => isTrue rfl
  | a :: as, b :: bs =>
    match Term.decEq a b, Term.decEqList as bs with
    | isTrue h1, isTrue h2 => isTrue (by rw [h1, h2])
    | isFalse h1, _ => isFalse (fun hh => h1 (List.cons.injEq .. ▸ hh).1)
    | _, isFalse h2 => isFalse (fun hh => h2 (List.cons.injEq .. ▸ hh).2)
  | [], _ :: _ => isFalse (fun h => List.noConfusion h)
  | _ :: _, [] => isFalse (fun h => List.noConfusion h)

/-- Decidable equality on optional terms. -/
def Term.decEqOpt : (a b : Option Term) → Decidable (a = b)
  | none, none => isTrue rfl
  | some a, some b =>
    match Term.decEq a b with
    | isTrue h => isTrue (by rw [h])
    | isFalse h => isFalse (fun hh => h (Option.some.inj hh))
  | none, some _ => isFalse (fun h => Option.noConfusion h)
  | some _, none => isFalse (fun h => Option.noConfusion h)

end

instance : DecidableEq Term := Term.decEq

/-- A substitution: mapping from variable id to term (spec §3), embedded as an
association list in binding order. -/
abbrev Subst : Type := List (Nat × Term)

/-- Look up a variable id in a substitution. -/
def substLookup (s : Subst) (i : Nat) : Option Term :=
  match s with
  | [] => none
  | (j, t) :: rest => if j = i then some t else substLookup rest i

/-- The binding walk underlying dereferencing, bounded by a step budget. -/
def derefWalk (s : Subst) : Nat → Term → Term
  | 0, t => t
  | n + 1, t =>
    match t with
    | .var i =>
      match substLookup s i with
      | some t2 => derefWalk s n t2
      | none => .var i
    | t => t

/-- Dereference: walk variable bindings transitively until reaching a
non-variable or an unbound variable (spec §3).  The walk is bounded by the
number of bindings, which suffices for every acyclic binding graph. -/
def derefT (s : Subst) (t : Term) : Term :=
  derefWalk s (List.length s + 1) t

/-- The engine callback type seen by a built-in: `engine._solve_goals` on a
single goal, observed at the level of its finite solution sequence. -/
abbrev SolveFn : Type := Term → Subst → List Subst

/-- From `ControlBuiltins._builtin_disjunction` (control.py lines 61-78):
if the left argument is a `->`/2 compound, solve the condition, commit to its
first solution and solve the then-part under it, or solve the else-part under
the original substitution if the condition yields nothing; otherwise solve the
left then the right disjunct. -/
def builtin_disjunction (solve : SolveFn) (left right : Term) (s : Subst) :
    List Subst :=
  match left with
  | .compound "->" [condition, then_part] =>
    match solve condition s with
    | condition_subst :: _ => solve then_part condition_subst
    | [] => solve right s
  | _ => solve left s ++ solve right s

/-- Whether a term matches the `(Cond -> Then)` pattern the disjunction
built-in tests for (`isinstance(left, Compound) and left.functor == "->" and
len(left.args) == 2`). -/
def isIfThenPattern : Term → Bool
  | .compound "->" [_, _] => true
  | _ => false

/-- From `ControlBuiltins._negation_as_failure` (control.py lines 52-59):
pull the first solution of the inner goal; if one exists, fail, otherwise
succeed once with the original substitution. -/
def negation_as_failure (solve : SolveFn) (goal : Term) (s : Subst) :
    List Subst :=
  match solve goal s with
  | [] => [s]
  | _ :: _ => []

/-- From `ControlBuiltins._builtin_not_unifiable` (control.py lines 46-50):
`return subst if unify(args[0], args[1], subst) is None else None`.  The
unifier itself lives in the absent `prolog.unification` module, so the
built-in is embedded parametrically over it, exactly as the Python function
is parametric in the imported `unify`. -/
def builtin_not_unifiable (unify : Term → Term → Subst → Option Subst)
    (a b : Term) (s : Subst) : Option Subst :=
  match unify a b s with
  | none => some s
  | some _ => none

/-- A concrete solver used by the witness theorems below: a handful of
propositional goals with fixed solution lists. -/
def demoSolve : SolveFn := fun g s =>
  match g with
  | .atom "c" => [(0, Term.atom "x") :: s]
  | .atom "t" => [s]
  | .atom "e" => [s, s]
  | .atom "a" => [s]
  | .atom "b" => [s, s]
  | _ => []

/-!
## Generator-level observation of a goal

`_builtin_setup_call_cleanup` and `_builtin_call_cleanup` are Python
generators whose cleanup behaviour depends on how the consumer drives the
solution iterator.  A goal's execution is observed as the finite list of
substitutions it yields plus its terminal outcome (normal end, or a raised
Prolog term); the consumer either exhausts the iterator or closes it after a
number of pulls.
-/

/-- What solving one goal produces, as seen through its (finite) iterator:
the yielded substitutions in order, then either normal completion (`none`)
or a raised exception term (`some e`). -/
structure SolveResult where
  yields : List Subst
  outcome : Option Term
deriving DecidableEq

/-- An engine callback observed at the iterator level. -/
abbrev LazySolve : Type := Term → Subst → SolveResult

/-- How a consumer drives a solution iterator: pull every solution, or close
the iterator after `k` successful pulls (`closeAfter 0` closes it before the
generator body has started running). -/
inductive Consumption where
  | exhaust
  | closeAfter (k : Nat)
deriving DecidableEq

/-- The solutions the consumer actually receives from an iterator over `r`. -/
def deliveredTo (r : SolveResult) : Consumption → List Subst
  | .exhaust => r.yields
  | .closeAfter k => r.yields.take k

/-- The terminal event the consumer observes from an iterator over `r`:
closing while the source is still suspended observes nothing, while pulling
past the last yield surfaces the source's outcome. -/
def terminalTo (r : SolveResult) : Consumption → Option Term
  | .exhaust => r.outcome
  | .closeAfter k => if k ≤ r.yields.length then none else r.outcome

/-- Running a cleanup goal the way control.py does (`for _ in
engine._solve_goals([cleanup_goal], s): break`): pull at most one solution.
A first solution (whatever follows it) or a clean failure is silent; an
exception raised before the first yield propagates. -/
def runCleanupOnce (r : SolveResult) : Option Term :=
  match r.yields with
  | _ :: _ => none
  | [] => r.outcome

/-- An observable event of a cleanup-guarded generator, in temporal order:
a solution handed to the consumer, one execution of the cleanup goal against
a given substitution, or an exception reaching the consumer. -/
inductive GenEvent where
  | yieldSol (s : Subst)
  | cleanupRun (s : Subst)
  | raised (e : Term)
deriving DecidableEq

/-- The substitutions against which cleanup was executed, in order. -/
def cleanupRunsOf (tr : List GenEvent) : List Subst :=
  tr.filterMap (fun ev =>
    match ev with
    | .cleanupRun s2 => some s2
    | _ => none)

/-- The solutions delivered to the consumer, in order. -/
def yieldedOf (tr : List GenEvent) : List Subst :=
  tr.filterMap (fun ev =>
    match ev with
    | .yieldSol s2 => some s2
    | _ => none)

/-- The exceptions that reached the consumer, in order. -/
def raisedOf (tr : List GenEvent) : List Term :=
  tr.filterMap (fun ev =>
    match ev with
    | .raised e => some e
    | _ => none)

/-- The trailing events of a cleanup-guarded generator after its `finally`
block ran: an exception raised by the cleanup pull takes precedence,
otherwise the goal's pending terminal exception (if any) reaches the
consumer. -/
def tailEvents (cleanupErr goalTerminal : Option Term) : List GenEvent :=
  match cleanupErr with
  | some e => [.raised e]
  | none =>
    match goalTerminal with
    | some e => [.raised e]
    | none => []

/-- From `ControlBuiltins._builtin_setup_call_cleanup` (control.py lines
125-150), as the event trace of the generator under a given consumer:
closing before the first pull never starts the body; otherwise Setup is
solved and its first solution taken (a Setup error before any yield
propagates, with no cleanup); then the Goal solutions are streamed to the
consumer and the `finally` block runs the cleanup goal exactly once against
Setup's substitution, after which a pending Goal exception (or one raised by
the cleanup pull itself) reaches the consumer. -/
def builtin_setup_call_cleanup (solve : LazySolve)
    (setup_goal goal cleanup_goal : Term) (s : Subst) (c : Consumption) :
    List GenEvent :=
  match c with
  | .closeAfter 0 => []
  | _ =>
    let rs := solve (derefT s setup_goal) s
    match rs.yields with
    | [] =>
      match rs.outcome with
      | some e => [.raised e]
      | none => []
    | setup_subst :: _ =>
      let rg := solve (derefT s goal) setup_subst
      ((deliveredTo rg c).map GenEvent.yieldSol)
        ++ [GenEvent.cleanupRun setup_subst]
        ++ tailEvents (runCleanupOnce (solve (derefT s cleanup_goal) setup_subst))
            (terminalTo rg c)

/-- From `ControlBuiltins._builtin_call_cleanup` (control.py lines 152-172):
like `setup_call_cleanup` with no setup step — stream the Goal solutions and
run cleanup exactly once in the `finally` block, whether the iterator is
exhausted, closed, or an exception passes through. -/
def builtin_call_cleanup (solve : LazySolve) (goal cleanup_goal : Term)
    (s : Subst) (c : Consumption) : List GenEvent :=
  match c with
  | .closeAfter 0 => []
  | _ =>
    let rg := solve (derefT s goal) s
    ((deliveredTo rg c).map GenEvent.yieldSol)
      ++ [GenEvent.cleanupRun s]
      ++ tailEvents (runCleanupOnce (solve (derefT s cleanup_goal) s))
          (terminalTo rg c)

/-- A concrete iterator-level solver for the witness theorems. -/
def demoLazySolve : LazySolve := fun g s =>
  match g with
  | .atom "g" => ⟨[s, s], none⟩
  | .atom "sg" => ⟨[(5, Term.atom "x") :: s], none⟩
  | .atom "cl" => ⟨[], none⟩
  | _ => ⟨[], none⟩

/-!
## Resolver model

The resolver/engine module itself is not among the provided sources (only
its built-ins, tests and callers are), so the solver below is modelled from
spec §4.4: goal dispatch after dereferencing, conjunction threading,
if-then-else with committed condition, negation as failure, cut as a signal
truncating the enclosing predicate frame's alternatives, a fresh cut barrier
for `call/1`, clause resolution with renamed copies in clause order, an
existence check for unknown non-dynamic predicates, and a per-interpreter
recursion-depth limit raising `resource_error(recursion_depth_exceeded)`.
-/

/-- A clause: pair (head, body); facts are clauses with body `true`
(spec §3). -/
structure Clause where
  head : Term
  body : Term
deriving DecidableEq

/-- The clause store, in insertion order. -/
abbrev Database : Type := List Clause

/-- A predicate indicator: functor name and arity (spec §3). -/
abbrev PredIndicator : Type := String × Nat

/-- The clause database together with the dynamic declarations the existence
check consults. -/
structure EngineDB where
  clauses : Database
  dynamics : List PredIndicator
deriving DecidableEq

/-- The thrown term for exceeding the recursion-depth limit (spec §4.4 and
§6: `error(resource_error(recursion_depth_exceeded), Context)`). -/
def recursionDepthError : Term :=
  .compound "error"
    [.compound "resource_error" [.atom "recursion_depth_exceeded"],
     .atom "resolver"]

/-- The thrown term for an unknown, non-dynamic procedure (spec §6). -/
def existenceError (f : String) (n : Nat) : Term :=
  .compound "error"
    [.compound "existence_error"
       [.atom "procedure", .compound "/" [.atom f, .intNum n]],
     .atom f]

/-- The thrown term for a required-bound argument left unbound (spec §6). -/
def instantiationError (ctx : String) : Term :=
  .compound "error" [.atom "instantiation_error", .atom ctx]

/-- The thrown term for a non-callable where a goal was required (spec §6). -/
def typeCallableError (culprit : Term) (ctx : String) : Term :=
  .compound "error" [.compound "type_error" [.atom "callable", culprit], .atom ctx]

/-- Sentinel outcome marking exhaustion of the model's step budget; it is
an artifact of embedding the recursive Python solver as a total function and
is never reached by the theorems below, which supply ample budgets. -/
def outOfGas : Term := .atom "model_step_budget_exhausted"

/-- Unify two argument lists pairwise left-to-right, threading the
substitution, with the unifier for single terms passed in (spec §4.1,
compound case). -/
def unifyArgsWith (u : Term → Term → Subst → Option Subst) :
    List Term → List Term → Subst → Option Subst
  | [], [], s => some s
  | a :: as, b :: bs, s =>
    match u a b s with
    | some s2 => unifyArgsWith u as bs s2
    | none => none
  | _, _, _ => none

/-- Unify two list skeletons: element-wise over the shared prefix, then the
leftover of one side (as a list term) against the other side's tail; a list
with no elements and no tail stands for `[]` (spec §4.1, list case). -/
def unifyListWith (u : Term → Term → Subst → Option Subst) :
    List Term → Option Term → List Term → Option Term → Subst → Option Subst
  | [], t, [], v, s =>
    (match t, v with
     | none, none => some s
     | some t1, some v1 => u t1 v1 s
     | some t1, none => u t1 (Term.listT [] none) s
     | none, some v1 => u (Term.listT [] none) v1 s)
  | e :: es, t, f :: fs, v, s =>
    (match u e f s with
     | some s2 => unifyListWith u es t fs v s2
     | none => none)
  | [], t, f :: fs, v, s =>
    (match t with
     | some t1 => u t1 (Term.listT (f :: fs) v) s
     | none => none)
  | e :: es, t, [], v, s =>
    (match v with
     | some v1 => u (Term.listT (e :: es) t) v1 s
     | none => none)

/-- Modelled from the spec: the unifier of §4.1 (the `prolog.unification`
module is not among the provided sources).  Dereference both sides, bind a
variable to the other side (occurs-check off, the source's default), match
atoms by name, integers by value, compounds by functor and arity with
argument-wise unification, lists element-wise with tail handling, and an
empty untailed list against the atom `[]`; any other pair fails.  The step
budget bounds the recursion and is generous for acyclic inputs. -/
def unifyW : Nat → Term → Term → Subst → Option Subst
  | 0, _, _, _ => none
  | gas + 1, t1, t2, s =>
    match derefT s t1, derefT s t2 with
    | .var i, .var j => if i = j then some s else some ((i, Term.var j) :: s)
    | .var i, d2 => some ((i, d2) :: s)
    | d1, .var j => some ((j, d1) :: s)
    | .atom a, .atom b => if a = b then some s else none
    | .intNum a, .intNum b => if a = b then some s else none
    | .compound f as, .compound g bs =>
      if f = g ∧ as.length = bs.length then unifyArgsWith (unifyW gas) as bs s
      else none
    | .listT [] none, .atom "[]" => some s
    | .atom "[]", .listT [] none => some s
    | .listT [] (some t), .atom "[]" => unifyW gas t (Term.atom "[]") s
    | .atom "[]", .listT [] (some v) => unifyW gas (Term.atom "[]") v s
    | .listT es t, .listT fs v => unifyListWith (unifyW gas) es t fs v s
    | _, _ => none

/-- Shift every variable id in a term by an offset: renaming for clause
instantiation produces fresh-id copies (spec §3, §4.4 item 9).  The walk is
bounded by a step budget that is ample wherever it is used. -/
def renameWalk (off : Nat) : Nat → Term → Term
  | 0, t => t
  | fuel + 1, t =>
    match t with
    | .var i => .var (i + off)
    | .compound f as => .compound f (as.map (renameWalk off fuel))
    | .listT es tl => .listT (es.map (renameWalk off fuel)) (tl.map (renameWalk off fuel))
    | t => t

/-- One more than the largest variable id occurring in a term
(bounded walk). -/
def freshWalk : Nat → Term → Nat
  | 0, _ => 0
  | fuel + 1, t =>
    match t with
    | .var i => i + 1
    | .compound _ as => (as.map (freshWalk fuel)).foldl max 0
    | .listT es tl =>
      max ((es.map (freshWalk fuel)).foldl max 0) ((tl.map (freshWalk fuel)).getD 0)
    | _ => 0

/-- One more than the largest variable id bound or mentioned in a
substitution. -/
def substFresh (fuel : Nat) (s : Subst) : Nat :=
  s.foldl (fun m p => max (max m (p.1 + 1)) (freshWalk fuel p.2)) 0

/-- Whether a stored clause defines the predicate `f/n`. -/
def clauseMatches (c : Clause) (f : String) (n : Nat) : Bool :=
  match c.head with
  | .atom m => m == f && n == 0
  | .compound g as => g == f && as.length == n
  | _ => false

/-- What solving a goal produces in the resolver model: the yielded
substitutions in order, whether a cut escaped to the enclosing predicate
frame after the last yield, and the terminal outcome (normal completion or a
raised term). -/
structure SRes where
  yields : List Subst
  cut : Bool
  outcome : Option Term
deriving DecidableEq

/-- Thread a continuation goal over a list of solutions left-to-right: an
escaping cut stops the iteration over earlier choice points, and an error
stops everything (spec §4.4 item 3 and the cut-semantics paragraph). -/
def seqRun (step : Subst → SRes) : List Subst → SRes
  | [] => ⟨[], false, none⟩
  | s1 :: rest =>
    let r := step s1
    match r.outcome with
    | some e => ⟨r.yields, r.cut, some e⟩
    | none =>
      if r.cut then ⟨r.yields, true, none⟩
      else
        let rr := seqRun step rest
        ⟨r.yields ++ rr.yields, rr.cut, rr.outcome⟩

/-- Try candidate clauses in clause order: rename the clause with fresh
variable ids, unify the goal with the renamed head, solve the renamed body
on success; a cut in a body truncates the remaining clause candidates of
this predicate call and is absorbed at the frame barrier (spec §4.4 item 9). -/
def clausesRun (fuel : Nat) (step : Term → Subst → SRes) (goal : Term) :
    List Clause → Subst → SRes
  | [], _ => ⟨[], false, none⟩
  | c :: rest, s =>
    let off := max (substFresh fuel s) (freshWalk fuel goal)
    let h := renameWalk off fuel c.head
    let b := renameWalk off fuel c.body
    match unifyW fuel h goal s with
    | none => clausesRun fuel step goal rest s
    | some s2 =>
      let rb := step b s2
      match rb.outcome with
      | some e => ⟨rb.yields, false, some e⟩
      | none =>
        if rb.cut then ⟨rb.yields, false, none⟩
        else
          let rr := clausesRun fuel step goal rest s
          ⟨rb.yields ++ rr.yields, false, rr.outcome⟩

/-- A predicate-call frame: the depth counter is charged here, exceeding the
per-interpreter limit raises `resource_error(recursion_depth_exceeded)`
(spec §4.4, depth limiting); an unknown predicate that is not declared
dynamic raises `existence_error(procedure, Name/Arity)` (spec §4.4 item 9). -/
def userCall (db : EngineDB) (rec : Nat → Term → Subst → SRes) (fuel : Nat)
    (depth : Nat) (goal : Term) (f : String) (n : Nat) (s : Subst) : SRes :=
  match depth with
  | 0 => ⟨[], false, some recursionDepthError⟩
  | depth2 + 1 =>
    let cands := db.clauses.filter (fun c => clauseMatches c f n)
    if cands.isEmpty && !(db.dynamics.contains (f, n)) then
      ⟨[], false, some (existenceError f n)⟩
    else clausesRun fuel (rec depth2) goal cands s

/-- One step of goal evaluation (spec §4.4 items 1-9), dispatching on the
dereferenced goal with the recursive solver passed in:
`true`/`fail`/`false`, cut as a yield carrying the cut signal, conjunction,
disjunction with the `(Cond -> Then ; Else)` pattern committed to the
condition's first solution, if-then alone, negation as failure, `call/1` as
a fresh cut barrier, `throw/1`, errors for unbound or non-callable goals,
and user predicate frames. -/
def dispatchGoal (db : EngineDB) (rec : Nat → Term → Subst → SRes)
    (fuel : Nat) (depth : Nat) (goal : Term) (s : Subst) : SRes :=
  match derefT s goal with
  | .atom "true" => ⟨[s], false, none⟩
  | .atom "fail" => ⟨[], false, none⟩
  | .atom "false" => ⟨[], false, none⟩
  | .atom "!" => ⟨[s], true, none⟩
  | .compound "," [a, b] =>
    let ra := rec depth a s
    let rseq := seqRun (rec depth b) ra.yields
    (match rseq.outcome with
     | some e => ⟨rseq.yields, rseq.cut, some e⟩
     | none =>
       if rseq.cut then ⟨rseq.yields, true, none⟩
       else ⟨rseq.yields, ra.cut, ra.outcome⟩)
  | .compound ";" [lft, rgt] =>
    (match derefT s lft with
     | .compound "->" [cond, then_part] =>
       let rc := rec depth cond s
       (match rc.yields with
        | cs :: _ => rec depth then_part cs
        | [] =>
          match rc.outcome with
          | some e => ⟨[], false, some e⟩
          | none => rec depth rgt s)
     | _ =>
       let rl := rec depth lft s
       (match rl.outcome with
        | some _ => rl
        | none =>
          if rl.cut then rl
          else
            let rr := rec depth rgt s
            ⟨rl.yields ++ rr.yields, rr.cut, rr.outcome⟩))
  | .compound "->" [cond, then_part] =>
    let rc := rec depth cond s
    (match rc.yields with
     | cs :: _ => rec depth then_part cs
     | [] => ⟨[], false, rc.outcome⟩)
  | .compound "\\+" [g] =>
    let r := rec depth g s
    (match r.yields with
     | _ :: _ => ⟨[], false, none⟩
     | [] =>
       match r.outcome with
       | some e => ⟨[], false, some e⟩
       | none => ⟨[s], false, none⟩)
  | .compound "call" [g] =>
    let r := rec depth g s
    ⟨r.yields, false, r.outcome⟩
  | .compound "throw" [e] => ⟨[], false, some (derefT s e)⟩
  | .var _ => ⟨[], false, some (instantiationError "solve")⟩
  | .intNum n => ⟨[], false, some (typeCallableError (.intNum n) "solve")⟩
  | .listT es tl => ⟨[], false, some (typeCallableError (.listT es tl) "solve")⟩
  | .atom f => userCall db rec fuel depth (.atom f) f 0 s
  | .compound f as => userCall db rec fuel depth (.compound f as) f as.length s

/-- Modelled from the spec: the resolver of §4.4 (the engine module is not
among the provided sources).  `solveE db gas depth goal s` solves one goal:
`depth` is the remaining recursion-depth budget of the interpreter, charged
once per predicate-call frame; `gas` is the model's step budget (an
embedding artifact, ample in every theorem below).  Exceptions `catch/3`,
`once/1` and the bulk collectors are not needed by any claim and are left
out of the model. -/
def solveE (db : EngineDB) : Nat → Nat → Term → Subst → SRes
  | 0, _, _, _ => ⟨[], false, some outOfGas⟩
  | gas + 1, depth, goal, s =>
    dispatchGoal db (fun d g2 s2 => solveE db gas d g2 s2) gas depth goal s

/-- A propositional call chain `c0.  c1 :- c0.  …  c6 :- c5.`: solving `ck`
takes `k + 1` predicate-call frames. -/
def chainDB : Database :=
  [⟨.atom "c0", .atom "true"⟩,
   ⟨.atom "c1", .atom "c0"⟩,
   ⟨.atom "c2", .atom "c1"⟩,
   ⟨.atom "c3", .atom "c2"⟩,
   ⟨.atom "c4", .atom "c3"⟩,
   ⟨.atom "c5", .atom "c4"⟩,
   ⟨.atom "c6", .atom "c5"⟩]

/-- The chain program loaded into an engine with no dynamic declarations. -/
def chainEngine : EngineDB := ⟨chainDB, []⟩

/-- Two two-clause predicates whose first bodies differ only in wrapping the
cutting disjunction `(! ; true)` in `call/1`. -/
def barrierDB : Database :=
  [⟨.atom "p", .compound "call" [.compound ";" [.atom "!", .atom "true"]]⟩,
   ⟨.atom "p", .atom "true"⟩,
   ⟨.atom "q", .compound ";" [.atom "!", .atom "true"]⟩,
   ⟨.atom "q", .atom "true"⟩]

/-- The barrier demonstration program loaded into an engine. -/
def barrierEngine : EngineDB := ⟨barrierDB, []⟩

/-!
## DCG built-ins

From `vibeprolog/builtins/dcg.py`.  The engine helpers the built-ins call
(`_check_instantiated`, `_check_type`, `_check_predicate_exists`,
`_solve_goals`) live in the absent engine module; they are embedded as the
dereference of this file, thrown error terms following spec §6, a
predicate-existence oracle, and the engine callback, respectively.
-/

/-- The empty Prolog list `List(elements=(), tail=None)`. -/
def emptyPrologList : Term := .listT [] none

/-- From `DCGBuiltins._builtin_phrase_2` (dcg.py lines 23-51):
`phrase(RuleSet, List)` checks that `RuleSet` dereferences to an atom or
compound (unbound raises `instantiation_error`, other kinds raise
`type_error(callable, …)`), builds the goal by appending `(List, [])` to the
rule set's arguments (an atom becomes a binary compound), checks that the
expanded goal's predicate exists, and solves the goal. -/
def builtin_phrase_2 (solve : SolveFn) (existsPred : String → Nat → Bool)
    (rule_set input_list : Term) (s : Subst) : Except Term (List Subst) :=
  match derefT s rule_set with
  | .var _ => .error (instantiationError "phrase/2")
  | .atom name =>
    let goal := Term.compound name [input_list, emptyPrologList]
    if existsPred name 2 then .ok (solve goal s)
    else .error (existenceError name 2)
  | .compound f as =>
    let goal := Term.compound f (as ++ [input_list, emptyPrologList])
    if existsPred f (as.length + 2) then .ok (solve goal s)
    else .error (existenceError f (as.length + 2))
  | other => .error (typeCallableError other "phrase/2")

/-- From `DCGBuiltins._builtin_phrase_3` (dcg.py lines 53-80):
`phrase(RuleSet, List, Rest)` is `phrase/2` with `(List, Rest)` appended
instead of `(List, [])`. -/
def builtin_phrase_3 (solve : SolveFn) (existsPred : String → Nat → Bool)
    (rule_set input_list rest : Term) (s : Subst) : Except Term (List Subst) :=
  match derefT s rule_set with
  | .var _ => .error (instantiationError "phrase/3")
  | .atom name =>
    let goal := Term.compound name [input_list, rest]
    if existsPred name 2 then .ok (solve goal s)
    else .error (existenceError name 2)
  | .compound f as =>
    let goal := Term.compound f (as ++ [input_list, rest])
    if existsPred f (as.length + 2) then .ok (solve goal s)
    else .error (existenceError f (as.length + 2))
  | other => .error (typeCallableError other "phrase/3")

/-!
## Conditional compilation

Modelled from the spec (§4.2): the reader module is not among the provided
sources; the behaviour is pinned by `src/tests/test_conditional_compilation.py`.
The reader tracks a stack of per-file blocks; `:- if(Goal).`, `:- else.`,
`:- endif.` push, flip and pop inclusion state, and the faults below raise
structured errors.  The result of solving an `if` condition is abstracted
to the boolean it decides.
-/

/-- A top-level item of a source unit, as the reader's conditional-compilation
layer sees it. -/
inductive SourceItem where
  | ifDir (cond : Bool)
  | elseDir
  | endifDir
  | clauseItem (t : Term)
deriving DecidableEq

/-- One open `if` block: whether its current branch is included, and whether
its `else` has already been seen. -/
structure CondFrame where
  including : Bool
  seenElse : Bool
deriving DecidableEq

/-- The structured error thrown for a conditional-compilation fault. -/
def condCompError (what : String) : Term :=
  .compound "error"
    [.compound "syntax_error" [.atom what], .atom "conditional_compilation"]

/-- Whether clauses at the current position are included: every enclosing
block must be on an included branch. -/
def activeStack (stack : List CondFrame) : Bool :=
  stack.all (fun f => f.including)

/-- Modelled from the spec: process a source unit's items against a stack of
open `if` blocks, returning the clauses actually added to the database, or
the structured error thrown for `else`/`endif` without an open block, a
second `else` in the same block, or a block still open at end of input. -/
def processConditionals : List SourceItem → List CondFrame → Except Term (List Term)
  | [], [] => .ok []
  | [], _ :: _ => .error (condCompError "unclosed_if_at_end_of_file")
  | item :: rest, stack =>
    match item with
    | .ifDir c => processConditionals rest (⟨c, false⟩ :: stack)
    | .elseDir =>
      (match stack with
       | [] => .error (condCompError "else_without_if")
       | f :: fs =>
         if f.seenElse then .error (condCompError "multiple_else_in_block")
         else processConditionals rest (⟨!f.including, true⟩ :: fs))
    | .endifDir =>
      (match stack with
       | [] => .error (condCompError "endif_without_if")
       | _ :: fs => processConditionals rest fs)
    | .clauseItem t =>
      (match processConditionals rest stack with
       | .error e => .error e
       | .ok ts => .ok (if activeStack stack then t :: ts else ts))

/-!
## Predicate properties

Modelled from the spec (§4.3): the database/inspection module is not among
the provided sources; the enumeration is pinned by
`src/tests/test_predicate_property.py`: registered built-ins enumerate
`built_in` followed by `static`; a predicate is `static` exactly when it is
not declared dynamic; `multifile` and `discontiguous` hold exactly when
declared.
-/

/-- The database state `predicate_property/2` inspects: stored clauses per
predicate indicator, the declaration flags, and the registered built-ins. -/
structure PredDatabase where
  clauses : List (PredIndicator × Clause)
  dynamics : List PredIndicator
  multifiles : List PredIndicator
  discontigs : List PredIndicator
  builtins : List PredIndicator
deriving DecidableEq

/-- Modelled from the spec: the property atoms `predicate_property/2`
enumerates for a predicate indicator, in enumeration order. -/
def predicateProperties (db : PredDatabase) (pi : PredIndicator) : List String :=
  (if db.builtins.contains pi then ["built_in"] else [])
    ++ (if db.dynamics.contains pi then ["dynamic"] else ["static"])
    ++ (if db.multifiles.contains pi then ["multifile"] else [])
    ++ (if db.discontigs.contains pi then ["discontiguous"] else [])

/-- The control built-ins registered at engine construction
(`ControlBuiltins.register`, control.py lines 20-38). -/
def defaultBuiltins : List PredIndicator :=
  [("=", 2), ("\\=", 2), ("\\+", 1), (";", 2), ("->", 2), (",", 2),
   ("call", 1), ("once", 1), ("true", 0), ("fail", 0),
   ("setup_call_cleanup", 3), ("call_cleanup", 2)]

/-- A freshly constructed interpreter: no user clauses, no declarations,
the control built-ins registered. -/
def freshInterpreterDB : PredDatabase := ⟨[], [], [], [], defaultBuiltins⟩

/-- A concrete unifier for the witness theorems: syntactic equality. -/
def demoUnify : Term → Term → Subst → Option Subst := fun a b s =>
  if a = b then some s else none

/-- A concrete predicate-existence oracle for the witness theorems. -/
def demoExists : String → Nat → Bool := fun f n =>
  (f == "np" && n == 2) || (f == "nt" && n == 3)

/-!
## Shared trace lemmas
-/

/-- Cleanup runs distribute over trace concatenation. -/
theorem cleanupRunsOf_append (a b : List GenEvent) :
    cleanupRunsOf (a ++ b) = cleanupRunsOf a ++ cleanupRunsOf b := by
  simp [cleanupRunsOf]

/-- Yielded solutions distribute over trace concatenation. -/
theorem yieldedOf_append (a b : List GenEvent) :
    yieldedOf (a ++ b) = yieldedOf a ++ yieldedOf b := by
  simp [yieldedOf]

/-- Raised exceptions distribute over trace concatenation. -/
theorem raisedOf_append (a b : List GenEvent) :
    raisedOf (a ++ b) = raisedOf a ++ raisedOf b := by
  simp [raisedOf]

/-- A block of yield events contains no cleanup run. -/
theorem cleanupRunsOf_yieldSols (l : List Subst) :
    cleanupRunsOf (l.map GenEvent.yieldSol) = [] := by
  induction l with
  | nil => rfl
  | cons a t ih => simp [cleanupRunsOf, List.filterMap_cons] at ih ⊢

/-- A block of yield events delivers exactly its solutions. -/
theorem yieldedOf_yieldSols (l : List Subst) :
    yieldedOf (l.map GenEvent.yieldSol) = l := by
  induction l with
  | nil => rfl
  | cons a t ih => simpa [yieldedOf, List.filterMap_cons] using ih

/-- A block of yield events raises nothing. -/
theorem raisedOf_yieldSols (l : List Subst) :
    raisedOf (l.map GenEvent.yieldSol) = [] := by
  induction l with
  | nil => rfl
  | cons a t ih => simp [raisedOf, List.filterMap_cons] at ih ⊢

/-- The trailing events contain no cleanup run. -/
theorem cleanupRunsOf_tailEvents (o1 o2 : Option Term) :
    cleanupRunsOf (tailEvents o1 o2) = [] := by
  cases o1 <;> cases o2 <;> rfl

/-- The trailing events deliver no solution. -/
theorem yieldedOf_tailEvents (o1 o2 : Option Term) :
    yieldedOf (tailEvents o1 o2) = [] := by
  cases o1 <;> cases o2 <;> rfl

/-- With a silent cleanup pull, the trailing events raise exactly the goal's
pending terminal exception. -/
theorem raisedOf_tailEvents_none (o2 : Option Term) :
    raisedOf (tailEvents none o2) =
      (match o2 with
       | some e => [e]
       | none => []) := by
  cases o2 <;> rfl

/-!
## Claim theorems
-/

/-- C1: for every goal `(Cond -> Then ; Else)` given to `;`/2 and every
substitution `S`, the solver commits to the first solution of `Cond` only;
if `Cond` has at least one solution, the yielded solutions are exactly those
of `Then` under that first condition substitution; if `Cond` has no
solution, the yielded solutions are exactly those of `Else` under the
original `S`; and for a disjunction whose left argument is not a `->`/2
compound, the yielded solutions are those of the left disjunct followed by
those of the right disjunct, both under `S`. -/
theorem disjunction_if_then_else_semantics (solve : SolveFn)
    (cond then_part else_part lft rgt : Term) (s : Subst) :
    (∀ cs rest, solve cond s = cs :: rest →
      builtin_disjunction solve (.compound "->" [cond, then_part]) else_part s
        = solve then_part cs)
  ∧ (solve cond s = [] →
      builtin_disjunction solve (.compound "->" [cond, then_part]) else_part s
        = solve else_part s)
  ∧ (isIfThenPattern lft = false →
      builtin_disjunction solve lft rgt s = solve lft s ++ solve rgt s) := by
  refine ⟨?_, ?_, ?_⟩
  · intro cs rest h
    simp [builtin_disjunction, h]
  · intro h
    simp [builtin_disjunction, h]
  · intro h
    unfold builtin_disjunction
    split
    · simp [isIfThenPattern] at h
    · rfl

/-- Witness for C1 at concrete inputs: a condition with solutions commits to
the first one and runs the then-part, a failing condition runs the else-part
under the original substitution, and a non-conditional disjunction
concatenates both disjuncts' solutions. -/
theorem disjunction_if_then_else_semantics_witness :
    builtin_disjunction demoSolve (.compound "->" [.atom "c", .atom "t"]) (.atom "e") []
      = [[(0, Term.atom "x")]]
  ∧ builtin_disjunction demoSolve (.compound "->" [.atom "z", .atom "t"]) (.atom "e") []
      = [[], []]
  ∧ builtin_disjunction demoSolve (.atom "a") (.atom "b") [] = [[], [], []] := by
  refine ⟨?_, ?_, ?_⟩
  · exact ((disjunction_if_then_else_semantics demoSolve (.atom "c") (.atom "t")
      (.atom "e") (.atom "a") (.atom "b") []).1 [(0, Term.atom "x")] [] (by rfl)).trans
      (by rfl)
  · exact ((disjunction_if_then_else_semantics demoSolve (.atom "z") (.atom "t")
      (.atom "e") (.atom "a") (.atom "b") []).2.1 (by rfl)).trans (by rfl)
  · exact ((disjunction_if_then_else_semantics demoSolve (.atom "c") (.atom "t")
      (.atom "e") (.atom "a") (.atom "b") []).2.2 (by rfl)).trans (by rfl)

/-- C3: for every goal `G` and substitution `S`, solving `\+(G)` under `S`
yields no solution if `G` has at least one solution under `S`, and otherwise
succeeds exactly once yielding the original substitution `S`, so no binding
made while solving `G` survives. -/
theorem negation_as_failure_semantics (solve : SolveFn) (g : Term) (s : Subst) :
    (solve g s ≠ [] → negation_as_failure solve g s = [])
  ∧ (solve g s = [] → negation_as_failure solve g s = [s]) := by
  constructor
  · intro h
    cases hh : solve g s with
    | nil => exact absurd hh h
    | cons a rest => simp [negation_as_failure, hh]
  · intro h
    simp [negation_as_failure, h]

/-- Witness for C3 at concrete inputs: a goal with a solution makes the
negation fail, a goal without solutions makes it succeed once with the
original substitution. -/
theorem negation_as_failure_semantics_witness :
    negation_as_failure demoSolve (.atom "a") [] = []
  ∧ negation_as_failure demoSolve (.atom "z") [] = [[]] :=
  ⟨(negation_as_failure_semantics demoSolve (.atom "a") []).1 (by decide),
   (negation_as_failure_semantics demoSolve (.atom "z") []).2 (by rfl)⟩

/-- C10: for all terms `A`, `B` and every substitution `S`, the built-in
`\=`/2 fails exactly when `unify(A, B, S)` succeeds, succeeds exactly once
yielding `S` itself exactly when `unify(A, B, S)` fails, and never extends
or modifies the substitution. -/
theorem not_unifiable_semantics (u : Term → Term → Subst → Option Subst)
    (a b : Term) (s : Subst) :
    (∀ s2, u a b s = some s2 → builtin_not_unifiable u a b s = none)
  ∧ (u a b s = none → builtin_not_unifiable u a b s = some s)
  ∧ (builtin_not_unifiable u a b s = none ∨ builtin_not_unifiable u a b s = some s) := by
  refine ⟨?_, ?_, ?_⟩
  · intro s2 h
    simp [builtin_not_unifiable, h]
  · intro h
    simp [builtin_not_unifiable, h]
  · unfold builtin_not_unifiable
    cases u a b s <;> simp

/-- Witness for C10 at concrete inputs: unifiable terms make `\=` fail,
non-unifiable terms make it succeed with the substitution unchanged. -/
theorem not_unifiable_semantics_witness :
    builtin_not_unifiable demoUnify (.atom "x") (.atom "x") [] = none
  ∧ builtin_not_unifiable demoUnify (.atom "x") (.atom "y") [] = some [] :=
  ⟨(not_unifiable_semantics demoUnify (.atom "x") (.atom "x") []).1 [] (by rfl),
   (not_unifiable_semantics demoUnify (.atom "x") (.atom "y") []).2.1 (by rfl)⟩

/-- C7: during consult, an `:- else.` or `:- endif.` with no open
`:- if(...)` block, a second `:- else.` within the same block, and a source
unit ending with an unclosed `:- if(...)` block each raise a structured
error rather than being silently accepted (final conjunct: a well-formed
block is accepted and selects the right branch). -/
theorem conditional_compilation_faults :
    processConditionals [.elseDir] [] = .error (condCompError "else_without_if")
  ∧ processConditionals [.endifDir] [] = .error (condCompError "endif_without_if")
  ∧ processConditionals
      [.ifDir true, .clauseItem (.atom "a"), .elseDir, .clauseItem (.atom "b"),
       .elseDir, .clauseItem (.atom "c"), .endifDir] []
      = .error (condCompError "multiple_else_in_block")
  ∧ processConditionals [.ifDir true, .clauseItem (.atom "fact")] []
      = .error (condCompError "unclosed_if_at_end_of_file")
  ∧ processConditionals
      [.ifDir false, .clauseItem (.atom "a"), .elseDir, .clauseItem (.atom "b"),
       .endifDir] []
      = .ok [.atom "b"] := by
  refine ⟨by rfl, by rfl, by rfl, by rfl, by rfl⟩

/-- Counterexample to C8 as stated: the predicate indicator `true/0` has no
defining clauses and no dynamic declaration in a fresh interpreter, yet
`predicate_property/2` enumerates `built_in` for it (as
`test_atom_predicate` in test_predicate_property.py requires), so it does
not hold exactly the property `static`. -/
theorem predicate_property_static_only_counterexample :
    predicateProperties freshInterpreterDB ("true", 0) = ["built_in", "static"]
  ∧ predicateProperties freshInterpreterDB ("true", 0) ≠ ["static"]
  ∧ freshInterpreterDB.clauses.filter (fun pc => pc.1 == ("true", 0)) = []
  ∧ freshInterpreterDB.dynamics.contains ("true", 0) = false :=
  ⟨by rfl, by decide, by rfl, by rfl⟩

/-- C8 (amended): for every predicate indicator that is not a registered
built-in and carries no dynamic, multifile or discontiguous declaration —
in particular any indicator with no defining clauses and no declarations at
all — `predicate_property/2` succeeds with exactly the property atom
`static` and with no other property. -/
theorem predicate_property_static_default (db : PredDatabase)
    (pi : PredIndicator)
    (hb : pi ∉ db.builtins)
    (hd : pi ∉ db.dynamics)
    (hm : pi ∉ db.multifiles)
    (hx : pi ∉ db.discontigs) :
    predicateProperties db pi = ["static"] := by
  simp [predicateProperties, hb, hd, hm, hx]

/-- Witness for the amended C8: the undeclared, clause-less indicator
`nonexistent_pred/1` of a fresh interpreter holds exactly `static` (the
scenario of `test_nonexistent_predicate_defaults_to_static`). -/
theorem predicate_property_static_default_witness :
    predicateProperties freshInterpreterDB ("nonexistent_pred", 1) = ["static"] :=
  predicate_property_static_default freshInterpreterDB ("nonexistent_pred", 1)
    (by decide) (by decide) (by decide) (by decide)

/-- C5: a predicate-call frame entered with the recursion-depth budget
exhausted raises the Prolog-level exception
`error(resource_error(recursion_depth_exceeded), _)` (a thrown term, not a
host-language overflow — the model solver is a total function), and the
limit is per-interpreter: on the same chain program, an interpreter with
limit 5 solves `c4` but raises the resource error on `c5`, while an
interpreter with limit 10 solves `c5`. -/
theorem recursion_depth_limit (db : EngineDB) (rec : Nat → Term → Subst → SRes)
    (fuel : Nat) (goal : Term) (f : String) (n : Nat) (s : Subst) :
    userCall db rec fuel 0 goal f n s = ⟨[], false, some recursionDepthError⟩
  ∧ recursionDepthError =
      .compound "error"
        [.compound "resource_error" [.atom "recursion_depth_exceeded"],
         .atom "resolver"]
  ∧ solveE chainEngine 200 5 (.atom "c5") [] = ⟨[], false, some recursionDepthError⟩
  ∧ solveE chainEngine 200 5 (.atom "c4") [] = ⟨[[]], false, none⟩
  ∧ solveE chainEngine 200 10 (.atom "c5") [] = ⟨[[]], false, none⟩ :=
  ⟨rfl, rfl, by decide, by decide, by decide⟩

/-- C4: `call/1` establishes a new cut barrier: solving `call(G)` yields
exactly the solutions of `G` but never lets a cut signal escape to the
invoking frame; concretely, a predicate whose first clause body is
`call((! ; true))` still tries its second clause (two solutions for `p`),
while the unwrapped body `(! ; true)` prunes it (one solution for `q`). -/
theorem call_establishes_cut_barrier (db : EngineDB) (gas depth : Nat)
    (g : Term) (s : Subst) :
    solveE db (gas + 1) depth (.compound "call" [g]) s
      = ⟨(solveE db gas depth g s).yields, false, (solveE db gas depth g s).outcome⟩
  ∧ solveE barrierEngine 200 10 (.atom "p") [] = ⟨[[], []], false, none⟩
  ∧ solveE barrierEngine 200 10 (.atom "q") [] = ⟨[[]], false, none⟩ :=
  ⟨rfl, by decide, by decide⟩

/-- C2: on every execution path through `setup_call_cleanup(Setup, Goal,
Cleanup)` in which Setup was executed and succeeded, Cleanup runs exactly
once, against Setup's first solution substitution — whether the consumer
exhausts the solution iterator, closes it after any number of pulls, an
exception propagates through it, or Goal fails without yielding (all
universally quantified in `solve` and the consumption `c`); if Setup fails
(or errors), Cleanup never runs.  Closing before the first pull never
starts the generator, so Setup does not run at all on that path. -/
theorem setup_call_cleanup_cleanup_exactly_once (solve : LazySolve)
    (sg g cg : Term) (s : Subst) (c : Consumption) :
    cleanupRunsOf (builtin_setup_call_cleanup solve sg g cg s c)
      = (if c = Consumption.closeAfter 0 then []
         else
           match (solve (derefT s sg) s).yields with
           | [] => []
           | ss :: _ => [ss]) := by
  have core : ∀ (c2 : Consumption),
      cleanupRunsOf
        (match (solve (derefT s sg) s).yields with
         | [] =>
           (match (solve (derefT s sg) s).outcome with
            | some e => [GenEvent.raised e]
            | none => [])
         | setup_subst :: _ =>
           ((deliveredTo (solve (derefT s g) setup_subst) c2).map GenEvent.yieldSol)
             ++ [GenEvent.cleanupRun setup_subst]
             ++ tailEvents
                 (runCleanupOnce (solve (derefT s cg) setup_subst))
                 (terminalTo (solve (derefT s g) setup_subst) c2))
        = (match (solve (derefT s sg) s).yields with
           | [] => []
           | ss :: _ => [ss]) := by
    intro c2
    cases hys : (solve (derefT s sg) s).yields with
    | nil =>
      cases ho : (solve (derefT s sg) s).outcome <;> simp [cleanupRunsOf]
    | cons ss rest =>
      simp only [cleanupRunsOf_append, cleanupRunsOf_yieldSols, cleanupRunsOf_tailEvents]
      simp [cleanupRunsOf]
  cases c with
  | exhaust => simpa [builtin_setup_call_cleanup] using core .exhaust
  | closeAfter k =>
    cases k with
    | zero => simp [builtin_setup_call_cleanup, cleanupRunsOf]
    | succ k2 => simpa [builtin_setup_call_cleanup] using core (.closeAfter (k2 + 1))

/-- C9: in `setup_call_cleanup/3` and `call_cleanup/2` the Cleanup goal is
evaluated only up to its first solution — `runCleanupOnce` never looks past
the head of the yield list — and Cleanup's outcome is ignored: whenever the
cleanup pull is silent (Cleanup fails cleanly or succeeds), the solutions
delivered for Goal are exactly the consumer's view of Goal alone and the
only exception that can reach the consumer is Goal's own. -/
theorem cleanup_first_solution_only_and_outcome_ignored (solve : LazySolve)
    (sg g cg : Term) (s : Subst) (c : Consumption) :
    (∀ (y : Subst) (ys : List Subst) (o : Option Term),
       runCleanupOnce ⟨y :: ys, o⟩ = none)
  ∧ (runCleanupOnce (solve (derefT s cg) s) = none →
       yieldedOf (builtin_call_cleanup solve g cg s c)
         = deliveredTo (solve (derefT s g) s) c
     ∧ raisedOf (builtin_call_cleanup solve g cg s c)
         = (match terminalTo (solve (derefT s g) s) c with
            | some e => [e]
            | none => []))
  ∧ (∀ (ss : Subst) (rest : List Subst),
       (solve (derefT s sg) s).yields = ss :: rest →
       runCleanupOnce (solve (derefT s cg) ss) = none →
       yieldedOf (builtin_setup_call_cleanup solve sg g cg s c)
         = deliveredTo (solve (derefT s g) ss) c
     ∧ raisedOf (builtin_setup_call_cleanup solve sg g cg s c)
         = (match terminalTo (solve (derefT s g) ss) c with
            | some e => [e]
            | none => [])) := by
  refine ⟨fun y ys o => rfl, ?_, ?_⟩
  · intro hrc
    cases c with
    | exhaust =>
      constructor
      · simp only [builtin_call_cleanup, hrc, yieldedOf_append, yieldedOf_yieldSols,
          yieldedOf_tailEvents]
        simp [yieldedOf]
      · simp only [builtin_call_cleanup, hrc, raisedOf_append, raisedOf_yieldSols,
          raisedOf_tailEvents_none]
        simp [raisedOf]
    | closeAfter k =>
      cases k with
      | zero =>
        constructor
        · simp [builtin_call_cleanup, yieldedOf, deliveredTo]
        · simp [builtin_call_cleanup, raisedOf, terminalTo]
      | succ k2 =>
        constructor
        · simp only [builtin_call_cleanup, hrc, yieldedOf_append, yieldedOf_yieldSols,
            yieldedOf_tailEvents]
          simp [yieldedOf]
        · simp only [builtin_call_cleanup, hrc, raisedOf_append, raisedOf_yieldSols,
            raisedOf_tailEvents_none]
          simp [raisedOf]
  · intro ss rest hys hrc
    cases c with
    | exhaust =>
      constructor
      · simp only [builtin_setup_call_cleanup, hys, hrc, yieldedOf_append,
          yieldedOf_yieldSols, yieldedOf_tailEvents]
        simp [yieldedOf]
      · simp only [builtin_setup_call_cleanup, hys, hrc, raisedOf_append,
          raisedOf_yieldSols, raisedOf_tailEvents_none]
        simp [raisedOf]
    | closeAfter k =>
      cases k with
      | zero =>
        constructor
        · simp [builtin_setup_call_cleanup, yieldedOf, deliveredTo]
        · simp [builtin_setup_call_cleanup, raisedOf, terminalTo]
      | succ k2 =>
        constructor
        · simp only [builtin_setup_call_cleanup, hys, hrc, yieldedOf_append,
            yieldedOf_yieldSols, yieldedOf_tailEvents]
          simp [yieldedOf]
        · simp only [builtin_setup_call_cleanup, hys, hrc, raisedOf_append,
            raisedOf_yieldSols, raisedOf_tailEvents_none]
          simp [raisedOf]

/-- Witness for C9 at concrete inputs: with a cleanup goal that fails
cleanly, `call_cleanup` delivers exactly the goal's two solutions and raises
nothing, and `setup_call_cleanup` delivers the goal's solutions under the
setup substitution. -/
theorem cleanup_first_solution_only_witness :
    yieldedOf (builtin_call_cleanup demoLazySolve (.atom "g") (.atom "cl") [] .exhaust)
      = [[], []]
  ∧ raisedOf (builtin_call_cleanup demoLazySolve (.atom "g") (.atom "cl") [] .exhaust)
      = []
  ∧ yieldedOf (builtin_setup_call_cleanup demoLazySolve (.atom "sg") (.atom "g")
        (.atom "cl") [] .exhaust)
      = [[(5, Term.atom "x")], [(5, Term.atom "x")]] :=
  ⟨((cleanup_first_solution_only_and_outcome_ignored demoLazySolve (.atom "sg")
      (.atom "g") (.atom "cl") [] .exhaust).2.1 (by rfl)).1.trans (by rfl),
   ((cleanup_first_solution_only_and_outcome_ignored demoLazySolve (.atom "sg")
      (.atom "g") (.atom "cl") [] .exhaust).2.1 (by rfl)).2.trans (by rfl),
   ((cleanup_first_solution_only_and_outcome_ignored demoLazySolve (.atom "sg")
      (.atom "g") (.atom "cl") [] .exhaust).2.2 [(5, Term.atom "x")] [] (by rfl)
      (by rfl)).1.trans (by rfl)⟩

/-- C6: `phrase(Body, List)` solves the goal obtained by appending
`(List, [])` to Body's argument tuple (an atom becoming a binary compound)
and `phrase(Body, List, Rest)` appends `(List, Rest)`; an unbound Body
raises `instantiation_error`, a non-callable Body raises
`type_error(callable, …)`, and an expanded goal naming an undefined
predicate raises the existence error before any solution is produced. -/
theorem phrase_expansion_semantics (solve : SolveFn)
    (existsPred : String → Nat → Bool) (body input_list rest : Term)
    (s : Subst) :
    (∀ name, derefT s body = .atom name → existsPred name 2 = true →
       builtin_phrase_2 solve existsPred body input_list s
         = .ok (solve (.compound name [input_list, emptyPrologList]) s)
     ∧ builtin_phrase_3 solve existsPred body input_list rest s
         = .ok (solve (.compound name [input_list, rest]) s))
  ∧ (∀ f as, derefT s body = .compound f as → existsPred f (as.length + 2) = true →
       builtin_phrase_2 solve existsPred body input_list s
         = .ok (solve (.compound f (as ++ [input_list, emptyPrologList])) s)
     ∧ builtin_phrase_3 solve existsPred body input_list rest s
         = .ok (solve (.compound f (as ++ [input_list, rest])) s))
  ∧ (∀ i, derefT s body = .var i →
       builtin_phrase_2 solve existsPred body input_list s
         = .error (instantiationError "phrase/2")
     ∧ builtin_phrase_3 solve existsPred body input_list rest s
         = .error (instantiationError "phrase/3"))
  ∧ (∀ n, derefT s body = .intNum n →
       builtin_phrase_2 solve existsPred body input_list s
         = .error (typeCallableError (.intNum n) "phrase/2")
     ∧ builtin_phrase_3 solve existsPred body input_list rest s
         = .error (typeCallableError (.intNum n) "phrase/3"))
  ∧ (∀ es tl, derefT s body = .listT es tl →
       builtin_phrase_2 solve existsPred body input_list s
         = .error (typeCallableError (.listT es tl) "phrase/2")
     ∧ builtin_phrase_3 solve existsPred body input_list rest s
         = .error (typeCallableError (.listT es tl) "phrase/3"))
  ∧ (∀ name, derefT s body = .atom name → existsPred name 2 = false →
       builtin_phrase_2 solve existsPred body input_list s
         = .error (existenceError name 2)
     ∧ builtin_phrase_3 solve existsPred body input_list rest s
         = .error (existenceError name 2))
  ∧ (∀ f as, derefT s body = .compound f as → existsPred f (as.length + 2) = false →
       builtin_phrase_2 solve existsPred body input_list s
         = .error (existenceError f (as.length + 2))
     ∧ builtin_phrase_3 solve existsPred body input_list rest s
         = .error (existenceError f (as.length + 2))) := by
  refine ⟨?_, ?_, ?_, ?_, ?_, ?_, ?_⟩
  · intro name h hex
    constructor <;> simp [builtin_phrase_2, builtin_phrase_3, h, hex]
  · intro f as h hex
    constructor <;> simp [builtin_phrase_2, builtin_phrase_3, h, hex]
  · intro i h
    constructor <;> simp [builtin_phrase_2, builtin_phrase_3, h]
  · intro n h
    constructor <;> simp [builtin_phrase_2, builtin_phrase_3, h]
  · intro es tl h
    constructor <;> simp [builtin_phrase_2, builtin_phrase_3, h]
  · intro name h hex
    constructor <;> simp [builtin_phrase_2, builtin_phrase_3, h, hex]
  · intro f as h hex
    constructor <;> simp [builtin_phrase_2, builtin_phrase_3, h, hex]

/-- Witness for C6 at concrete inputs: a defined atom and compound rule set
expand and solve under both `phrase/2` and `phrase/3`; an unbound rule set
raises `instantiation_error`, an integer or list rule set raises
`type_error(callable, …)`, and an undefined expanded predicate — atom or
compound — raises the existence error, in each case for both arities. -/
theorem phrase_expansion_semantics_witness :
    builtin_phrase_2 demoSolve demoExists (.atom "np") (.atom "l") [] = .ok []
  ∧ builtin_phrase_3 demoSolve demoExists (.atom "np") (.atom "l") (.atom "r") [] = .ok []
  ∧ builtin_phrase_2 demoSolve demoExists (.compound "nt" [.atom "w"]) (.atom "l") []
      = .ok []
  ∧ builtin_phrase_3 demoSolve demoExists (.compound "nt" [.atom "w"]) (.atom "l")
      (.atom "r") [] = .ok []
  ∧ builtin_phrase_2 demoSolve demoExists (.var 7) (.atom "l") []
      = .error (instantiationError "phrase/2")
  ∧ builtin_phrase_3 demoSolve demoExists (.var 7) (.atom "l") (.atom "r") []
      = .error (instantiationError "phrase/3")
  ∧ builtin_phrase_2 demoSolve demoExists (.intNum 3) (.atom "l") []
      = .error (typeCallableError (.intNum 3) "phrase/2")
  ∧ builtin_phrase_3 demoSolve demoExists (.intNum 3) (.atom "l") (.atom "r") []
      = .error (typeCallableError (.intNum 3) "phrase/3")
  ∧ builtin_phrase_2 demoSolve demoExists (.listT [] none) (.atom "l") []
      = .error (typeCallableError (.listT [] none) "phrase/2")
  ∧ builtin_phrase_3 demoSolve demoExists (.listT [] none) (.atom "l") (.atom "r") []
      = .error (typeCallableError (.listT [] none) "phrase/3")
  ∧ builtin_phrase_2 demoSolve demoExists (.atom "undef") (.atom "l") []
      = .error (existenceError "undef" 2)
  ∧ builtin_phrase_3 demoSolve demoExists (.atom "undef") (.atom "l") (.atom "r") []
      = .error (existenceError "undef" 2)
  ∧ builtin_phrase_2 demoSolve demoExists (.compound "uc" [.atom "w"]) (.atom "l") []
      = .error (existenceError "uc" 3)
  ∧ builtin_phrase_3 demoSolve demoExists (.compound "uc" [.atom "w"]) (.atom "l")
      (.atom "r") [] = .error (existenceError "uc" 3) := by
  refine ⟨?_, ?_, ?_, ?_, ?_, ?_, ?_, ?_, ?_, ?_, ?_, ?_, ?_, ?_⟩
  · exact ((phrase_expansion_semantics demoSolve demoExists (.atom "np") (.atom "l")
      (.atom "r") []).1 "np" (by rfl) (by rfl)).1.trans (by rfl)
  · exact ((phrase_expansion_semantics demoSolve demoExists (.atom "np") (.atom "l")
      (.atom "r") []).1 "np" (by rfl) (by rfl)).2.trans (by rfl)
  · exact ((phrase_expansion_semantics demoSolve demoExists (.compound "nt" [.atom "w"])
      (.atom "l") (.atom "r") []).2.1 "nt" [.atom "w"] (by rfl) (by rfl)).1.trans (by rfl)
  · exact ((phrase_expansion_semantics demoSolve demoExists (.compound "nt" [.atom "w"])
      (.atom "l") (.atom "r") []).2.1 "nt" [.atom "w"] (by rfl) (by rfl)).2.trans (by rfl)
  · exact ((phrase_expansion_semantics demoSolve demoExists (.var 7) (.atom "l")
      (.atom "r") []).2.2.1 7 (by rfl)).1
  · exact ((phrase_expansion_semantics demoSolve demoExists (.var 7) (.atom "l")
      (.atom "r") []).2.2.1 7 (by rfl)).2
  · exact ((phrase_expansion_semantics demoSolve demoExists (.intNum 3) (.atom "l")
      (.atom "r") []).2.2.2.1 3 (by rfl)).1
  · exact ((phrase_expansion_semantics demoSolve demoExists (.intNum 3) (.atom "l")
      (.atom "r") []).2.2.2.1 3 (by rfl)).2
  · exact ((phrase_expansion_semantics demoSolve demoExists (.listT [] none) (.atom "l")
      (.atom "r") []).2.2.2.2.1 [] none (by rfl)).1
  · exact ((phrase_expansion_semantics demoSolve demoExists (.listT [] none) (.atom "l")
      (.atom "r") []).2.2.2.2.1 [] none (by rfl)).2
  · exact ((phrase_expansion_semantics demoSolve demoExists (.atom "undef") (.atom "l")
      (.atom "r") []).2.2.2.2.2.1 "undef" (by rfl) (by rfl)).1
  · exact ((phrase_expansion_semantics demoSolve demoExists (.atom "undef") (.atom "l")
      (.atom "r") []).2.2.2.2.2.1 "undef" (by rfl) (by rfl)).2
  · exact ((phrase_expansion_semantics demoSolve demoExists (.compound "uc" [.atom "w"])
      (.atom "l") (.atom "r") []).2.2.2.2.2.2 "uc" [.atom "w"] (by rfl) (by rfl)).1
  · exact ((phrase_expansion_semantics demoSolve demoExists (.compound "uc" [.atom "w"])
      (.atom "l") (.atom "r") []).2.2.2.2.2.2 "uc" [.atom "w"] (by rfl) (by rfl)).2

end VibeProlog
